import Mathlib

/-!
Verification of the series-aware label propagation and classification pipeline
of the EnvisionPerdido repository (scripts/fill_recurring_labels.py,
scripts/svm_train_from_file.py, scripts/merge_and_propagate_labels.py,
scripts/auto_label_and_train.py, scripts/svm_tag_events.py,
scripts/smart_label_helper.py, scripts/svm_tag_from_file.py).

Modelling conventions.
A tabular cell of the label / uid / url / title / location columns is an
`Option String`: `none` is a pandas missing value (`NaN`, as produced by
`read_csv` for an empty cell) and `some s` a string cell.  `render` models
`astype(str)` / `str(x or "")`, both of which send a float `NaN` to the string
"nan" and leave strings unchanged.  Python string helpers (`str.strip`,
`str.replace(pat, repl, count)`, `str.lower`, the regexes `\s+`,
`[^a-z0-9 ]+` and `[\?#].*$`) are modelled by structural recursion over
`List Char`; regexes are modelled for inputs without newline characters
(event titles, locations and URLs), where `.*$` reaches the end of the
string.  `pandas.Series.str.replace('.0', '', 1)` is modelled with its
pandas >= 2.0 semantics (literal substring, first occurrence), which agrees
with the plain Python `v.replace('.0', '', 1)` used two lines above it in
the same source function.
-/

/-- Python whitespace class for `str.strip` and the regex `\s+` (ASCII part). -/
def isPySpace (c : Char) : Bool :=
  c = ' ' || c = '\t' || c = '\n' || c = '\r' || c = '\x0b' || c = '\x0c'

/-- Python `str.strip()` on a list of characters. -/
def pyStripList (l : List Char) : List Char :=
  ((l.dropWhile isPySpace).reverse.dropWhile isPySpace).reverse

/-- Python `str.strip()`. -/
def pyStrip (s : String) : String :=
  String.mk (pyStripList s.data)

/-- Python `s.replace(".0", "", 1)`: remove the first occurrence of ".0". -/
def removeFirstDot0 : List Char → List Char
  | [] => []
  | '.' :: '0' :: rest => rest
  | c :: rest => c :: removeFirstDot0 rest

/-- Python `s.replace(".0", "", 1)` on strings. -/
def stripFirstDot0 (s : String) : String :=
  String.mk (removeFirstDot0 s.data)

/-- Python `s.replace(".0", "")`: remove every occurrence of ".0",
left to right, non-overlapping. -/
def removeAllDot0 : List Char → List Char
  | [] => []
  | '.' :: '0' :: rest => removeAllDot0 rest
  | c :: rest => c :: removeAllDot0 rest

/-- Python `s.replace(".0", "")` on strings. -/
def stripAllDot0 (s : String) : String :=
  String.mk (removeAllDot0 s.data)

/-- Helper for `collapseWs`: the flag records whether the previous character
was whitespace (so the current run has already emitted its single space). -/
def collapseWsAux : Bool → List Char → List Char
  | _, [] => []
  | prevSpace, c :: rest =>
    if isPySpace c then
      if prevSpace then collapseWsAux true rest
      else ' ' :: collapseWsAux true rest
    else c :: collapseWsAux false rest

/-- The regex substitution `re.sub(r"\s+", " ", s)`: each whitespace run
becomes a single space. -/
def collapseWs (l : List Char) : List Char :=
  collapseWsAux false l

/-- Rendering of a cell by `astype(str)` (and by `str(x or "")`, which agrees
with it on string-or-NaN cells): a missing value becomes the string "nan". -/
def render : Option String → String
  | none => "nan"
  | some s => s

/-- Lexicographic comparison of char lists (ascending), used to model the
sorted order of `pandas.Series.mode()`. -/
def charListLe : List Char → List Char → Bool
  | [], _ => true
  | _ :: _, [] => false
  | a :: s, b :: t => if a < b then true else if b < a then false else charListLe s t

/-- Insertion into a list sorted by `charListLe`. -/
def insertSorted (v : String) : List String → List String
  | [] => [v]
  | w :: t => if charListLe v.data w.data then v :: w :: t else w :: insertSorted v t

/-- Insertion sort by `charListLe`, modelling the ascending order of
`pandas.Series.mode()`. -/
def sortStr (l : List String) : List String :=
  l.foldr insertSorted []

/-- Number of occurrences of `v` in `l`. -/
def countIn (l : List String) (v : String) : Nat :=
  (l.filter (fun w => w == v)).length

/-- The largest multiplicity occurring in `l`. -/
def maxCount (l : List String) : Nat :=
  (l.map (countIn l)).foldr max 0

/-- `pandas.Series.mode()`: all values of maximal multiplicity, in ascending
order. -/
def modeList (l : List String) : List String :=
  sortStr ((l.dedup).filter (fun v => countIn l v == maxCount l))

namespace FR

/-!
scripts/fill_recurring_labels.py, `fill_recurring_labels` / `propagate`
(lines 42-80).  `propagate` receives one `series_id` group of the label
column; `vals` collects the distinct cleaned labels
(`v.replace('.0', '', 1).strip() in ("0", "1")`, line 64-67); the `where`
mask (line 74) uses `str.replace('.0', '', 1)` WITHOUT `strip()` — this
asymmetry from the source is kept.
-/

/-- Cleaning used to collect `vals` (line 65): `v.replace('.0', '', 1).strip()`. -/
def clean (x : Option String) : String :=
  pyStrip (stripFirstDot0 (render x))

/-- The validity test of line 66: cleaned value is "0" or "1". -/
def valid (x : Option String) : Bool :=
  clean x == "0" || clean x == "1"

/-- The `where` mask of line 74: `astype(str).str.replace('.0', '', 1)`
is in `["0", "1"]` (note: no `strip`). -/
def mask (x : Option String) : Bool :=
  stripFirstDot0 (render x) == "0" || stripFirstDot0 (render x) == "1"

/-- The set `vals` of lines 63-67, as a duplicate-free list. -/
def vals (g : List (Option String)) : List String :=
  (g.filterMap (fun x => if valid x then some (clean x) else none)).dedup

/-- `propagate` (lines 60-77): if exactly one distinct valid label exists,
every member failing the mask is replaced by it; otherwise the group is
returned unchanged. -/
def propagate (g : List (Option String)) : List (Option String) :=
  match vals g with
  | [v] => g.map (fun x => if mask x then x else some v)
  | _ => g

/-- Elementwise form of `propagate`, parameterised by the group's `vals`;
`propagate` and `groupby(...).transform(propagate)` are both elementwise in
this sense because `Series.where` and the identity act cellwise. -/
def propElem (vs : List String) (x : Option String) : Option String :=
  match vs with
  | [v] => if mask x then x else some v
  | _ => x

/-- Labels of the rows of the table whose `series_id` equals `k`
(a table row is a `(series_id, label)` pair). -/
def groupLabels (rows : List (String × Option String)) (k : String) : List (Option String) :=
  (rows.filter (fun r => r.1 == k)).map (fun r => r.2)

/-- `fill_recurring_labels` (line 79):
`df.groupby("series_id")[label_col].transform(propagate)`.  Since
`propagate` is elementwise given its group's `vals`, the transform replaces
each row's label by `propElem` of its group's `vals`. -/
def fill_recurring_labels (rows : List (String × Option String)) :
    List (String × Option String) :=
  rows.map (fun r => (r.1, propElem (vals (groupLabels rows r.1)) r.2))

end FR

namespace ST

/-!
scripts/svm_train_from_file.py.  The strict `propagate` of the
`--propagate-series-labels` path (lines 120-126) compares the rendered
labels to "0" / "1" exactly (no `.0` cleaning, no `strip`), while the
labeled-row selection of line 132 first removes every ".0" occurrence
(`str.replace('.0', '', regex=False)`, n = -1).
-/

/-- The membership test of lines 121 and 124: rendered label is exactly
"0" or "1". -/
def mask (x : Option String) : Bool :=
  render x == "0" || render x == "1"

/-- The set `vals = {v for v in group.astype(str) if v in ("0", "1")}`
(line 121), as a duplicate-free list. -/
def vals (g : List (Option String)) : List String :=
  (g.filterMap (fun x => if mask x then some (render x) else none)).dedup

/-- `propagate` of lines 120-125: if exactly one distinct value exists,
`group.where(group.astype(str).isin(["0", "1"]), other=v)`. -/
def propagate (g : List (Option String)) : List (Option String) :=
  match vals g with
  | [v] => g.map (fun x => if mask x then x else some v)
  | _ => g

/-- The labeled-row mask of line 132:
`astype(str).str.replace('.0', '', regex=False).isin(["0", "1"])`. -/
def labeled_mask (x : Option String) : Bool :=
  stripAllDot0 (render x) == "0" || stripAllDot0 (render x) == "1"

/-- The halt condition of lines 134-135: `if df_l.empty: raise SystemExit`.
The script terminates without producing a model exactly when no row passes
`labeled_mask`. -/
def trainHalts (labels : List (Option String)) : Bool :=
  (labels.filter labeled_mask).length == 0

end ST

namespace MP

/-!
scripts/merge_and_propagate_labels.py.  Line 21 merges manual and predicted
labels by `df['label'].fillna(df['predicted_label'])`; `propagate_series`
(lines 27-37) fills the missing labels of a group with the group's most
common label; line 40-41 applies it only to rows whose `series_id` is
neither missing nor the empty string.
-/

/-- Line 21: `df['label'].fillna(df['predicted_label'])`, per row. -/
def mergeLabels (manual predicted : Option String) : Option String :=
  match manual with
  | some v => some v
  | none => predicted

/-- `propagate_series` (lines 27-37): `labeled = group[group.notna()]`; if
empty return the group; else fill missing values with `labeled.mode().iloc[0]`
when the mode is non-empty. -/
def propagate_series (g : List (Option String)) : List (Option String) :=
  let labeled := g.filterMap id
  if labeled.length = 0 then g
  else
    match modeList labeled with
    | [] => g
    | m :: _ => g.map (fun x => some (x.getD m))

/-- Elementwise form of `propagate_series` (both its branches act cellwise),
parameterised by the group it belongs to. -/
def propElem (g : List (Option String)) (x : Option String) : Option String :=
  let labeled := g.filterMap id
  if labeled.length = 0 then x
  else
    match modeList labeled with
    | [] => x
    | m :: _ => some (x.getD m)

/-- Labels of the rows whose `series_id` equals `some k` (a row is a
`(series_id, final_label)` pair; the `series_id` cell may be missing). -/
def groupLabels (rows : List (Option String × Option String)) (k : String) :
    List (Option String) :=
  (rows.filter (fun r => r.1 == some k)).map (fun r => r.2)

/-- One row of lines 39-41: a row whose `series_id` is missing or empty is
untouched; any other row's label is transformed by its group's
`propagate_series` (elementwise as `propElem`). -/
def rowFill (rows : List (Option String × Option String))
    (r : Option String × Option String) : Option String × Option String :=
  match r.1 with
  | none => r
  | some k => if k = "" then r else (r.1, propElem (groupLabels rows k) r.2)

/-- Lines 39-41: `valid_series = df['series_id'].notna() & (df['series_id'] != '')`;
`df.loc[valid_series, 'final_label'] = df[valid_series].groupby('series_id')
['final_label'].transform(propagate_series)`.  Rows with a missing or empty
`series_id` keep their label. -/
def mergeprop_table (rows : List (Option String × Option String)) :
    List (Option String × Option String) :=
  rows.map (rowFill rows)

end MP

namespace AL

/-!
scripts/auto_label_and_train.py, `propagate_series_labels` (lines 92-121).
The `series_id` here is the integer extracted by `extract_series_id` (or
missing).  For every group with a non-missing key and at least one
non-missing label, `df.loc[group.index, 'label'] = majority_label` assigns
the majority label to EVERY member of the group (lines 110-116).  The
groups of `df.groupby('series_id')` are disjoint and the assignment only
touches the group's own rows, so the loop is elementwise per group.
-/

/-- Labels of the rows whose `series_id` equals `some k`. -/
def groupLabels (rows : List (Option Int × Option String)) (k : Int) :
    List (Option String) :=
  (rows.filter (fun r => r.1 == some k)).map (fun r => r.2)

/-- Lines 108-112: `labels = group['label'].dropna()`; if non-empty,
`majority_label = labels.mode()[0] if len(labels.mode()) > 0 else labels.iloc[0]`. -/
def majority (g : List (Option String)) : Option String :=
  let labels := g.filterMap id
  if labels.length = 0 then none
  else
    match modeList labels with
    | m :: _ => some m
    | [] => labels.head?

/-- One row of lines 103-116: rows with a missing key are untouched; a row
whose group holds at least one label receives the group's majority label. -/
def rowAssign (rows : List (Option Int × Option String))
    (r : Option Int × Option String) : Option Int × Option String :=
  match r.1 with
  | none => r
  | some k =>
    match majority (groupLabels rows k) with
    | none => r
    | some m => (r.1, some m)

/-- `propagate_series_labels` (lines 103-116): groups with a missing key are
skipped; in every other group with at least one label, every member receives
the majority label (existing labels included). -/
def propagate_series_labels (rows : List (Option Int × Option String)) :
    List (Option Int × Option String) :=
  rows.map (rowAssign rows)

/-- Lines 200-204 of `main`: `labeled_df = existing_df[existing_df['label'].notna()]`;
`if len(labeled_df) < 5: ... return` — no initial model is trained when
fewer than 5 rows carry a non-missing label. -/
def initialTrainHalts (labels : List (Option String)) : Bool :=
  (labels.filter (fun x => x.isSome)).length < 5

end AL

/-!
scripts/fill_recurring_labels.py lines 13-39 and (identically)
scripts/svm_train_from_file.py lines 30-55: `_norm_url`, `_norm_str`,
`make_series_id`.  `make_series_id` works columnwise on aligned cells;
per row it is the function below.  `astype(str)` on a missing uid yields
the string "nan" (`render`), and `str(u or "")` on a missing (float NaN)
cell also yields "nan" because `float('nan')` is truthy in Python.
-/

/-- Line 13-18, `_norm_url`: strip, return "" if empty, drop the regex match
of `[\?#].*$` (everything from the first '?' or '#', for newline-free URLs),
then `rstrip("/")`. -/
def _norm_url (u : Option String) : String :=
  let s := pyStrip (render u)
  if s = "" then ""
  else
    String.mk
      (((s.data.takeWhile (fun c => !(c = '?' || c = '#'))).reverse.dropWhile
        (fun c => c = '/')).reverse)

/-- Line 21-24, `_norm_str`: lower-case, collapse whitespace runs to single
spaces (`re.sub(r"\s+", " ", s)`), strip, then delete every character
outside `[a-z0-9 ]` (`re.sub(r"[^a-z0-9 ]+", "", s)`). -/
def _norm_str (x : Option String) : String :=
  String.mk
    ((pyStripList (collapseWs ((render x).data.map Char.toLower))).filter
      (fun c => ('a' ≤ c && c ≤ 'z') || ('0' ≤ c && c ≤ '9') || c = ' '))

/-- Lines 27-39, `make_series_id` per row: trimmed rendered uid if non-empty,
else the normalized url if non-empty, else normalized title ++ "|" ++
normalized location.  (After `astype(str)` no cell is missing, so the
`isna()` disjuncts of lines 35 and 37 and the final `fillna("")` are
inert.) -/
def make_series_id (uid url title loc : Option String) : String :=
  let u := pyStrip (render uid)
  if u = "" then
    let w := _norm_url url
    if w = "" then _norm_str title ++ "|" ++ _norm_str loc
    else w
  else u

/-!
Temporal features of `build_features` (scripts/svm_train_from_file.py lines
58-81, scripts/svm_tag_from_file.py lines 21-44, scripts/svm_tag_events.py
lines 24-47, scripts/smart_label_helper.py lines 13-36 — all four are the
same code).  `pd.to_datetime(..., errors="coerce", utc=True)` either fails
(`NaT`, modelled `none`) or yields a UTC timestamp, modelled by its epoch
minute (an integer; 1970-01-01 00:00 UTC is minute 0 and was a Thursday,
day 3 in the Monday=0 convention used by `Timestamp.dayofweek`).
-/

/-- Hour-of-day of a UTC timestamp given as epoch minutes (`Timestamp.hour`). -/
def hourOfEpochMin (m : Int) : Int :=
  (m / 60) % 24

/-- Day-of-week (Monday = 0) of a UTC timestamp given as epoch minutes
(`Timestamp.dayofweek`). -/
def dowOfEpochMin (m : Int) : Int :=
  (m / 1440 + 3) % 7

/-- `hour = dt.dt.hour.fillna(-1).astype(int)`. -/
def featHour : Option Int → Int
  | none => -1
  | some m => hourOfEpochMin m

/-- `dow = dt.dt.dayofweek.fillna(-1).astype(int)`. -/
def featDow : Option Int → Int
  | none => -1
  | some m => dowOfEpochMin m

/-- `is_weekend = dow.between(5, 6).astype(int)` (`between` is inclusive on
both ends). -/
def featIsWeekend (p : Option Int) : Int :=
  if 5 ≤ featDow p ∧ featDow p ≤ 6 then 1 else 0

/-!
Confidence scores at the three prediction call sites, as functions of the
decision-function margin (a real quantity, modelled by `ℚ`).
-/

/-- scripts/svm_tag_events.py line 103: `confidence = 1 / (1 + |decision_scores|)`. -/
def prediction_confidence (m : ℚ) : ℚ :=
  1 / (1 + |m|)

/-- scripts/smart_label_helper.py line 73: `confidence = 1 / (1 + |decision_scores|)`. -/
def smart_confidence (m : ℚ) : ℚ :=
  1 / (1 + |m|)

/-- scripts/svm_tag_from_file.py line 95: `df["svm_confidence"] = np.abs(df["svm_margin"])`. -/
def svm_confidence (m : ℚ) : ℚ :=
  |m|

example : FR.propagate [some "1", none, some "1.0"] = [some "1", some "1", some "1.0"] := by
  decide

example : FR.propagate [some "0", some "1", none] = [some "0", some "1", none] := by
  decide

example : FR.fill_recurring_labels [("a", some "1"), ("b", none), ("a", none)] =
    [("a", some "1"), ("b", none), ("a", some "1")] := by
  decide

example : make_series_id (some " E1 ") none none none = "E1" := by decide

example : make_series_id (some "  ") (some "https://x/y?ref=abc") none none = "https://x/y" := by
  decide

example : make_series_id none (some "https://x/y") none none = "nan" := by decide

example : make_series_id (some "") (some "") (some " Farmers'  Market ") (some "Perdido PARK") =
    "farmers market|perdido park" := by decide

example : AL.propagate_series_labels
    [(some 7, some "0"), (some 7, some "1"), (some 7, some "1")] =
    [(some 7, some "1"), (some 7, some "1"), (some 7, some "1")] := by
  decide

example : MP.mergeprop_table [(some "a", some "1"), (some "a", none), (none, none)] =
    [(some "a", some "1"), (some "a", some "1"), (none, none)] := by
  decide

example : ST.propagate [some "1.0", some "0", none] = [some "0", some "0", some "0"] := by
  decide

/-- A non-empty list all of whose members equal `v` deduplicates to `[v]`. -/
lemma dedup_const {v : String} : ∀ {l : List String}, l ≠ [] →
    (∀ w ∈ l, w = v) → l.dedup = [v] := by
  intro l
  induction l with
  | nil => intro h; exact absurd rfl h
  | cons a t ih =>
    intro _ h
    have ha : a = v := h a (List.mem_cons_self a t)
    subst ha
    cases t with
    | nil => simp
    | cons b t' =>
      have ht : b :: t' ≠ [] := List.cons_ne_nil b t'
      have hd : (b :: t').dedup = [a] := ih ht (fun w hw => h w (List.mem_cons_of_mem a hw))
      have hb : b = a := h b (List.mem_cons_of_mem a (List.mem_cons_self b t'))
      rw [List.dedup_cons_of_mem (by rw [hb]; exact List.mem_cons_self a t'), hd]

namespace FR

/-- Equation lemma: `propElem` on an empty distinct-label list. -/
lemma propElem_nil (x : Option String) : propElem [] x = x := rfl

/-- Equation lemma: `propElem` on a singleton distinct-label list. -/
lemma propElem_singleton (v : String) (x : Option String) :
    propElem [v] x = if mask x then x else some v := rfl

/-- With zero or at least two distinct labels, `propElem` is the identity. -/
lemma propElem_not_single {vs : List String} (hvs : ∀ v, vs ≠ [v])
    (x : Option String) : propElem vs x = x := by
  match vs with
  | [] => rfl
  | [v] => exact absurd rfl (hvs v)
  | v :: w :: t => rfl

/-- With zero or at least two distinct labels, mapping `propElem` is the
identity on the group. -/
lemma map_propElem_id {vs : List String} (hvs : ∀ v, vs ≠ [v]) :
    ∀ g : List (Option String), g.map (propElem vs) = g := by
  intro g
  induction g with
  | nil => rfl
  | cons a t ih => rw [List.map_cons, propElem_not_single hvs, ih]

/-- Unfolding of the `where` mask. -/
lemma mask_cases {x : Option String} (h : mask x = true) :
    stripFirstDot0 (render x) = "0" ∨ stripFirstDot0 (render x) = "1" := by
  simp only [mask, Bool.or_eq_true, beq_iff_eq] at h
  exact h

/-- Unfolding of the validity test of `vals`. -/
lemma valid_cases {x : Option String} (h : valid x = true) :
    clean x = "0" ∨ clean x = "1" := by
  simp only [valid, Bool.or_eq_true, beq_iff_eq] at h
  exact h

/-- A label passing the `where` mask has a cleaned value "0" or "1". -/
lemma clean_of_mask {x : Option String} (h : mask x = true) :
    clean x = "0" ∨ clean x = "1" := by
  rcases mask_cases h with h' | h'
  · left
    show pyStrip (stripFirstDot0 (render x)) = "0"
    rw [h']
    decide
  · right
    show pyStrip (stripFirstDot0 (render x)) = "1"
    rw [h']
    decide

/-- A label passing the `where` mask is also counted by `vals`. -/
lemma valid_of_mask {x : Option String} (h : mask x = true) : valid x = true := by
  rcases clean_of_mask h with h' | h' <;> simp [valid, h']

/-- The strings "0" and "1" pass the `where` mask. -/
lemma mask_some01 {v : String} (h : v = "0" ∨ v = "1") : mask (some v) = true := by
  rcases h with h | h <;> subst h <;> decide

/-- The strings "0" and "1" clean to themselves. -/
lemma clean_some01 {v : String} (h : v = "0" ∨ v = "1") : clean (some v) = v := by
  rcases h with h | h <;> subst h <;> decide

/-- The strings "0" and "1" are valid labels. -/
lemma valid_some01 {v : String} (h : v = "0" ∨ v = "1") : valid (some v) = true := by
  rcases h with h | h <;> subst h <;> decide

/-- Members of `vals g` are "0" or "1" and are cleaned values of valid
members of the group. -/
lemma vals_mem {g : List (Option String)} {w : String} (h : w ∈ vals g) :
    (w = "0" ∨ w = "1") ∧ ∃ x ∈ g, valid x = true ∧ clean x = w := by
  have h' := List.mem_dedup.mp h
  obtain ⟨x, hx, hfx⟩ := List.mem_filterMap.mp h'
  by_cases hv : valid x = true
  · rw [if_pos hv] at hfx
    have hcw : clean x = w := Option.some_injective _ hfx
    refine ⟨?_, x, hx, hv, hcw⟩
    rcases valid_cases hv with h0 | h0
    · exact Or.inl (hcw ▸ h0)
    · exact Or.inr (hcw ▸ h0)
  · rw [if_neg hv] at hfx
    exact absurd hfx (by simp)

/-- The cleaned value of a valid member belongs to `vals`. -/
lemma clean_mem_vals {g : List (Option String)} {x : Option String}
    (hx : x ∈ g) (hv : valid x = true) : clean x ∈ vals g :=
  List.mem_dedup.mpr (List.mem_filterMap.mpr ⟨x, hx, by rw [if_pos hv]⟩)

/-- When exactly one distinct valid label exists, every valid member cleans
to it. -/
lemma vals_unique {g : List (Option String)} {v : String} {x : Option String}
    (hg : vals g = [v]) (hx : x ∈ g) (hv : valid x = true) : clean x = v := by
  have := clean_mem_vals hx hv
  rw [hg] at this
  simpa using this

/-- The propagator is the elementwise map `propElem` over the group. -/
lemma propagate_eq_map (g : List (Option String)) :
    propagate g = g.map (propElem (vals g)) := by
  rcases hV : vals g with _ | ⟨v, _ | ⟨w, t⟩⟩
  · simp only [propagate, hV]
    exact (map_propElem_id (by intro v h; exact List.noConfusion h) g).symm
  · simp only [propagate, hV]
    rfl
  · simp only [propagate, hV]
    exact (map_propElem_id (by intro u h; injection h with h1 h2; exact List.noConfusion h2) g).symm

/-- A member passing the mask is left unchanged by `propElem`, whatever the
group's distinct labels are. -/
lemma propElem_mask_keep {x : Option String} (vs : List String) (h : mask x = true) :
    propElem vs x = x := by
  match vs with
  | [] => rfl
  | [v] => rw [propElem_singleton, if_pos h]
  | v :: w :: t => rfl

/-- One round of `propElem` does not change the distinct valid labels of a
group. -/
lemma vals_map_propElem (g : List (Option String)) :
    vals (g.map (propElem (vals g))) = vals g := by
  rcases hV : vals g with _ | ⟨v, _ | ⟨w, t⟩⟩
  · rw [map_propElem_id (by intro v h; exact List.noConfusion h) g]
    exact hV
  case cons.nil =>
    have hvv : v ∈ vals g := by rw [hV]; exact List.mem_singleton_self v
    have hv01 : v = "0" ∨ v = "1" := (vals_mem hvv).1
    apply dedup_const
    · obtain ⟨-, x, hx, hvx, hcx⟩ := vals_mem hvv
      have hmem : propElem [v] x ∈ g.map (propElem [v]) := List.mem_map_of_mem _ hx
      apply List.ne_nil_of_mem (a := v)
      apply List.mem_filterMap.mpr
      refine ⟨propElem [v] x, hmem, ?_⟩
      by_cases hm : mask x = true
      · rw [propElem_mask_keep _ hm, if_pos hvx, hcx]
      · have h1 : propElem [v] x = some v := by
          rw [propElem_singleton, if_neg hm]
        rw [h1, if_pos (valid_some01 hv01), clean_some01 hv01]
    · intro u hu
      obtain ⟨y, hy, hfy⟩ := List.mem_filterMap.mp hu
      obtain ⟨x, hx, hyx⟩ := List.mem_map.mp hy
      by_cases hv' : valid y = true
      · rw [if_pos hv'] at hfy
        have hcy : clean y = u := Option.some_injective _ hfy
        by_cases hm : mask x = true
        · have hyx' : y = x := by rw [← hyx, propElem_mask_keep _ hm]
          subst hyx'
          rw [← hcy]
          exact vals_unique hV hx hv'
        · have hyv : y = some v := by
            rw [← hyx, propElem_singleton, if_neg hm]
          subst hyv
          rw [← hcy, clean_some01 hv01]
      · rw [if_neg hv'] at hfy
        exact absurd hfy (by simp)
  case cons.cons =>
    rw [map_propElem_id (by intro u h; injection h with h1 h2; exact List.noConfusion h2) g]
    exact hV

/-- Applied twice with the same group parameter, `propElem` acts as once,
provided a singleton parameter is "0" or "1". -/
lemma propElem_idem {vs : List String} (hvs : ∀ v, vs = [v] → v = "0" ∨ v = "1")
    (x : Option String) : propElem vs (propElem vs x) = propElem vs x := by
  match vs with
  | [] => rfl
  | [v] =>
    have hv01 := hvs v rfl
    by_cases hm : mask x = true
    · rw [propElem_mask_keep _ hm, propElem_mask_keep _ hm]
    · have h1 : propElem [v] x = some v := by rw [propElem_singleton, if_neg hm]
      rw [h1, propElem_mask_keep _ (mask_some01 hv01)]
  | v :: w :: t => rfl

/-- A singleton element of `vals` is "0" or "1" (hypothesis form used by
`propElem_idem`). -/
lemma vals_single01 (g : List (Option String)) :
    ∀ v, vals g = [v] → v = "0" ∨ v = "1" := by
  intro v hv
  exact (vals_mem (by rw [hv]; exact List.mem_singleton_self v)).1

/-- Grouping after one table-level fill: the labels of the `series_id = k`
group of the output are the propagated labels of the input's group. -/
lemma groupLabels_fill (rows : List (String × Option String)) (k : String) :
    groupLabels (fill_recurring_labels rows) k
      = (groupLabels rows k).map (propElem (vals (groupLabels rows k))) := by
  unfold groupLabels fill_recurring_labels
  rw [List.filter_map, List.map_map, List.map_map]
  have hfil :
      (rows.filter ((fun r : String × Option String => r.1 == k) ∘
        (fun r : String × Option String =>
          (r.1, propElem (vals (groupLabels rows r.1)) r.2))))
      = rows.filter (fun r => r.1 == k) := by
    rfl
  rw [hfil]
  apply List.map_congr_left
  intro r hr
  have hk : r.1 = k := by
    have := (List.mem_filter.mp hr).2
    exact eq_of_beq this
  show (propElem (vals (groupLabels rows r.1)) r.2) = propElem (vals (groupLabels rows k)) r.2
  rw [hk]

/-- Idempotence of the table-level fill: a second
`groupby("series_id").transform(propagate)` changes nothing. -/
lemma fill_idem (rows : List (String × Option String)) :
    fill_recurring_labels (fill_recurring_labels rows) = fill_recurring_labels rows := by
  conv_lhs => rw [fill_recurring_labels]
  rw [show fill_recurring_labels rows
      = rows.map (fun r => (r.1, propElem (vals (groupLabels rows r.1)) r.2)) from rfl,
    List.map_map]
  apply List.map_congr_left
  intro r _
  show ((r.1 : String),
      propElem (vals (groupLabels (fill_recurring_labels rows) r.1))
        (propElem (vals (groupLabels rows r.1)) r.2))
    = (r.1, propElem (vals (groupLabels rows r.1)) r.2)
  rw [groupLabels_fill, vals_map_propElem,
    propElem_idem (vals_single01 (groupLabels rows r.1)) r.2]

/-- Positional preservation: a row whose label passes the `where` mask is
unchanged by the table-level fill. -/
lemma fill_keep (rows : List (String × Option String)) (i : Nat)
    (hi : i < rows.length) (hm : mask (rows.getD i ("", none)).2 = true) :
    (fill_recurring_labels rows).getD i ("", none) = rows.getD i ("", none) := by
  have h1 : rows[i]? = some rows[i] := List.getElem?_eq_getElem hi
  have h2 : rows.getD i ("", none) = rows[i] := by
    rw [List.getD_eq_getElem?_getD, h1]
    rfl
  rw [h2] at hm ⊢
  show (rows.map (fun r => (r.1, propElem (vals (groupLabels rows r.1)) r.2))).getD i ("", none)
    = rows[i]
  rw [List.getD_eq_getElem?_getD, List.getElem?_map, h1]
  show ((rows[i]).1, propElem (vals (groupLabels rows (rows[i]).1)) (rows[i]).2) = rows[i]
  rw [propElem_mask_keep _ hm]

end FR

namespace MP

/-- The fillna step of `propagate_series` leaves present labels unchanged. -/
lemma propElem_some (g : List (Option String)) (s : String) :
    propElem g (some s) = some s := by
  simp only [propElem]
  split
  · rfl
  · split <;> rfl

/-- A row carrying a label is unchanged by the table-level propagation. -/
lemma rowFill_keep (rows : List (Option String × Option String))
    (r : Option String × Option String) (hs : r.2.isSome = true) :
    rowFill rows r = r := by
  obtain ⟨k, x⟩ := r
  obtain ⟨s, rfl⟩ : ∃ s, x = some s := by
    cases x with
    | none => exact absurd hs (by simp)
    | some s => exact ⟨s, rfl⟩
  cases k with
  | none => rfl
  | some k' =>
    by_cases hk : k' = ""
    · simp only [rowFill, if_pos hk]
    · simp only [rowFill, if_neg hk, propElem_some]

/-- Positional preservation for `mergeprop_table`. -/
lemma mergeprop_keep (rows : List (Option String × Option String)) (i : Nat)
    (hi : i < rows.length) (hs : ((rows.getD i (none, none)).2).isSome = true) :
    (mergeprop_table rows).getD i (none, none) = rows.getD i (none, none) := by
  have h1 : rows[i]? = some rows[i] := List.getElem?_eq_getElem hi
  have h2 : rows.getD i (none, none) = rows[i] := by
    rw [List.getD_eq_getElem?_getD, h1]
    rfl
  rw [h2] at hs ⊢
  show (rows.map (rowFill rows)).getD i (none, none) = rows[i]
  rw [List.getD_eq_getElem?_getD, List.getElem?_map, h1]
  show rowFill rows rows[i] = rows[i]
  exact rowFill_keep rows rows[i] hs

/-- `filterMap id` after filling every hole with `some` values. -/
lemma filterMap_fill (m : String) :
    ∀ l : List (Option String),
      (l.map (fun x => some (x.getD m))).filterMap id = l.map (fun x => x.getD m) := by
  intro l
  induction l with
  | nil => rfl
  | cons a t ih => simp [List.filterMap_cons, ih]

/-- `propagate_series` is idempotent. -/
lemma propagate_series_idem (g : List (Option String)) :
    propagate_series (propagate_series g) = propagate_series g := by
  by_cases h0 : (g.filterMap id).length = 0
  · have hg : propagate_series g = g := by
      simp only [propagate_series]
      rw [if_pos h0]
    rw [hg]
    exact hg
  · cases hm : modeList (g.filterMap id) with
    | nil =>
      have hg : propagate_series g = g := by
        simp only [propagate_series]
        rw [if_neg h0, hm]
      rw [hg]
      exact hg
    | cons m ms =>
      have hg : propagate_series g = g.map (fun x => some (x.getD m)) := by
        simp only [propagate_series]
        rw [if_neg h0, hm]
      rw [hg]
      have hgne : g ≠ [] := by
        intro h
        subst h
        exact h0 rfl
      have hlen : ((g.map (fun x => some (x.getD m))).filterMap id).length ≠ 0 := by
        rw [filterMap_fill, List.length_map]
        intro h
        exact hgne (List.length_eq_zero.mp h)
      show propagate_series (g.map (fun x => some (x.getD m)))
        = g.map (fun x => some (x.getD m))
      simp only [propagate_series]
      rw [if_neg hlen]
      cases hm' : modeList ((g.map (fun x => some (x.getD m))).filterMap id) with
      | nil => rfl
      | cons m' ms' =>
        show (g.map (fun x => some (x.getD m))).map (fun x => some (x.getD m'))
          = g.map (fun x => some (x.getD m))
        rw [List.map_map]
        apply List.map_congr_left
        intro a _
        rfl

end MP

namespace ST

/-- Members of the strict trainer's `vals` are exactly "0" or "1". -/
lemma valsST_mem {g : List (Option String)} {w : String} (h : w ∈ vals g) :
    w = "0" ∨ w = "1" := by
  have h' := List.mem_dedup.mp h
  obtain ⟨x, hx, hfx⟩ := List.mem_filterMap.mp h'
  by_cases hm : mask x = true
  · rw [if_pos hm] at hfx
    have hrw : render x = w := Option.some_injective _ hfx
    simp only [mask, Bool.or_eq_true, beq_iff_eq] at hm
    rw [← hrw]
    exact hm
  · rw [if_neg hm] at hfx
    exact absurd hfx (by simp)

/-- A singleton element of the strict trainer's `vals` is "0" or "1". -/
lemma valsST_single01 (g : List (Option String)) :
    ∀ v, vals g = [v] → v = "0" ∨ v = "1" := by
  intro v hv
  exact valsST_mem (by rw [hv]; exact List.mem_singleton_self v)

end ST

/-- The head of `dropWhile p l`, when it exists, fails `p`. -/
lemma dropWhile_head_false {p : Char → Bool} :
    ∀ {l : List Char} {a : Char}, (l.dropWhile p).head? = some a → p a = false := by
  intro l
  induction l with
  | nil => intro a h; exact absurd h (by simp)
  | cons b t ih =>
    intro a h
    by_cases hb : p b = true
    · rw [List.dropWhile_cons_of_pos hb] at h
      exact ih h
    · rw [List.dropWhile_cons_of_neg hb] at h
      have hba : b = a := by simpa using h
      subst hba
      exact Bool.eq_false_iff.mpr hb

/-- The normalized url contains no query or fragment delimiter. -/
lemma norm_url_no_qf (u : Option String) :
    ∀ c ∈ (_norm_url u).data, c ≠ '?' ∧ c ≠ '#' := by
  intro c hc
  unfold _norm_url at hc
  by_cases hs : pyStrip (render u) = ""
  · rw [if_pos hs] at hc
    exact absurd hc (by simp)
  · rw [if_neg hs] at hc
    have hc1 : c ∈ (((pyStrip (render u)).data.takeWhile
        (fun c => !(c = '?' || c = '#'))).reverse.dropWhile (fun c => c = '/')).reverse := hc
    have hc2 := List.mem_reverse.mp hc1
    have hc3 : c ∈ ((pyStrip (render u)).data.takeWhile
        (fun c => !(c = '?' || c = '#'))).reverse :=
      (List.dropWhile_sublist _).subset hc2
    have hc4 := List.mem_reverse.mp hc3
    have hp := List.mem_takeWhile_imp hc4
    simp only [Bool.not_eq_true', Bool.or_eq_false_iff, decide_eq_false_iff_not] at hp
    exact hp

/-- The normalized url does not end with a slash. -/
lemma norm_url_no_trailing_slash (u : Option String) :
    (_norm_url u).data.getLast? ≠ some '/' := by
  unfold _norm_url
  by_cases hs : pyStrip (render u) = ""
  · rw [if_pos hs]
    simp
  · rw [if_neg hs]
    intro h
    have h1 : (((pyStrip (render u)).data.takeWhile
        (fun c => !(c = '?' || c = '#'))).reverse.dropWhile
          (fun c => c = '/')).head? = some '/' := by
      rw [← List.getLast?_reverse]
      exact h
    have := dropWhile_head_false h1
    simp at this

/-- Every character of the normalized string is a lower-case letter, a digit,
or a space. -/
lemma norm_str_charset (x : Option String) :
    ∀ c ∈ (_norm_str x).data, ('a' ≤ c ∧ c ≤ 'z') ∨ ('0' ≤ c ∧ c ≤ '9') ∨ c = ' ' := by
  intro c hc
  have hc1 : c ∈ (pyStripList (collapseWs ((render x).data.map Char.toLower))).filter
      (fun c => ('a' ≤ c && c ≤ 'z') || ('0' ≤ c && c ≤ '9') || c = ' ') := hc
  have hp := List.of_mem_filter hc1
  simp only [Bool.or_eq_true, Bool.and_eq_true, decide_eq_true_eq] at hp
  exact or_assoc.mp hp

/-- Claim C1: per `series_id` group, the strict series propagator
(`fill_recurring_labels.py` `propagate` and the `--propagate-series-labels`
`propagate` of `svm_train_from_file.py`) fills every member failing the
valid-label mask with the unique distinct label when exactly one exists
(and that label is "0" or "1"), and returns the group unchanged when zero
or at least two distinct labels exist.  The conflict case produces no
diagnostic: both propagators return only the (unchanged) label series, and
neither script records or reports conflicting series anywhere. -/
theorem C1_strict_propagator_behavior (g : List (Option String)) :
    ((FR.vals g = [] → FR.propagate g = g)
      ∧ (∀ v, FR.vals g = [v] →
          (v = "0" ∨ v = "1")
            ∧ FR.propagate g = g.map (fun x => if FR.mask x then x else some v))
      ∧ (2 ≤ (FR.vals g).length → FR.propagate g = g))
    ∧ ((ST.vals g = [] → ST.propagate g = g)
      ∧ (∀ v, ST.vals g = [v] →
          (v = "0" ∨ v = "1")
            ∧ ST.propagate g = g.map (fun x => if ST.mask x then x else some v))
      ∧ (2 ≤ (ST.vals g).length → ST.propagate g = g)) := by
  refine ⟨⟨?_, ?_, ?_⟩, ?_, ?_, ?_⟩
  · intro h
    unfold FR.propagate
    rw [h]
  · intro v h
    refine ⟨FR.vals_single01 g v h, ?_⟩
    unfold FR.propagate
    rw [h]
  · intro h
    rcases hV : FR.vals g with _ | ⟨a, _ | ⟨b, t⟩⟩
    · unfold FR.propagate
      rw [hV]
    · rw [hV] at h
      exact absurd h (by norm_num)
    · unfold FR.propagate
      rw [hV]
  · intro h
    unfold ST.propagate
    rw [h]
  · intro v h
    refine ⟨ST.valsST_single01 g v h, ?_⟩
    unfold ST.propagate
    rw [h]
  · intro h
    rcases hV : ST.vals g with _ | ⟨a, _ | ⟨b, t⟩⟩
    · unfold ST.propagate
      rw [hV]
    · rw [hV] at h
      exact absurd h (by norm_num)
    · unfold ST.propagate
      rw [hV]

/-- Witness for C1: a conflicted group (distinct labels "0" and "1") is
returned unchanged by both strict propagators. -/
theorem C1_witness :
    FR.propagate [some "0", some "1", none] = [some "0", some "1", none]
    ∧ ST.propagate [some "0", some "1", none] = [some "0", some "1", none] := by
  have h := C1_strict_propagator_behavior [some "0", some "1", none]
  exact ⟨h.1.2.2 (by decide), h.2.2.2 (by decide)⟩

/-- Claim C2 (amended): in the two gap-filling propagation modes — the strict
mode of `fill_recurring_labels.py` and the majority mode of
`merge_and_propagate_labels.py` — an event already carrying a label is
unchanged by propagation: every rendered label among "0", "1", "0.0", "1.0"
passes the strict mask, rows passing the mask are preserved by
`fill_recurring_labels`, and rows with any non-missing label are preserved
by `merge_and_propagate_labels`' table-level propagation.  (The claim's
universal quantification over every propagation mode fails: see the
counterexample for `auto_label_and_train.py`.) -/
theorem C2_gap_filling_preserves_labels :
    (∀ s : String, s ∈ ["0", "1", "0.0", "1.0"] → FR.mask (some s) = true)
    ∧ (∀ (rows : List (String × Option String)) (i : Nat), i < rows.length →
        FR.mask (rows.getD i ("", none)).2 = true →
        (FR.fill_recurring_labels rows).getD i ("", none) = rows.getD i ("", none))
    ∧ (∀ (rows : List (Option String × Option String)) (i : Nat), i < rows.length →
        ((rows.getD i (none, none)).2).isSome = true →
        (MP.mergeprop_table rows).getD i (none, none) = rows.getD i (none, none)) := by
  refine ⟨?_, FR.fill_keep, MP.mergeprop_keep⟩
  intro s hs
  simp only [List.mem_cons, List.not_mem_nil, or_false] at hs
  rcases hs with rfl | rfl | rfl | rfl <;> decide

/-- Witness for C2: concrete labeled rows preserved by both gap-filling
modes. -/
theorem C2_witness :
    (FR.fill_recurring_labels [("a", some "1"), ("a", none)]).getD 0 ("", none)
      = ("a", some "1")
    ∧ (MP.mergeprop_table [(some "b", some "0"), (some "b", none)]).getD 0 (none, none)
      = (some "b", some "0") := by
  constructor
  · have h := C2_gap_filling_preserves_labels.2.1 [("a", some "1"), ("a", none)] 0
      (by decide) (by decide)
    rw [h]
    decide
  · have h := C2_gap_filling_preserves_labels.2.2 [(some "b", some "0"), (some "b", none)] 0
      (by decide) (by decide)
    rw [h]
    decide

/-- Counterexample for C2: `auto_label_and_train.py`'s
`propagate_series_labels` assigns the majority label to every member of a
series, overwriting an existing minority label: a row labelled "0" in a
series whose majority is "1" comes out labelled "1". -/
theorem C2_counterexample :
    AL.propagate_series_labels
        [(some 7, some "0"), (some 7, some "1"), (some 7, some "1")]
      = [(some 7, some "1"), (some 7, some "1"), (some 7, some "1")]
    ∧ (some "0" : Option String) ≠ some "1" := by
  exact ⟨by decide, by decide⟩

/-- Claim C3: series label propagation is idempotent — a second run of
`fill_recurring_labels` (strict mode, whole table) and of
`propagate_series` (majority mode, per group) changes nothing. -/
theorem C3_propagation_idempotent :
    (∀ rows : List (String × Option String),
        FR.fill_recurring_labels (FR.fill_recurring_labels rows)
          = FR.fill_recurring_labels rows)
    ∧ (∀ g : List (Option String),
        MP.propagate_series (MP.propagate_series g) = MP.propagate_series g) :=
  ⟨FR.fill_idem, MP.propagate_series_idem⟩

/-- Claim C4 (amended): the label merge of `merge_and_propagate_labels.py`
line 21 (`label.fillna(predicted_label)`) is a pure total function returning
the manual label whenever it is non-missing — including a blank string —
else the predicted label; in particular merge(1, 0) = 1,
merge(absent, 0) = 0 and merge(absent, absent) = absent. -/
theorem C4_merge_priority :
    MP.mergeLabels (some "1") (some "0") = some "1"
    ∧ MP.mergeLabels none (some "0") = some "0"
    ∧ MP.mergeLabels none none = none
    ∧ (∀ (v : String) (p : Option String), MP.mergeLabels (some v) p = some v)
    ∧ (∀ p : Option String, MP.mergeLabels none p = p) :=
  ⟨rfl, rfl, rfl, fun _ _ => rfl, fun _ => rfl⟩

/-- Counterexample for C4: a blank (whitespace) manual label is not missing,
so `fillna` keeps it — the claim's rule "manual only when non-blank, else
predicted" would give the predicted label instead. -/
theorem C4_counterexample :
    MP.mergeLabels (some " ") (some "0") = some " "
    ∧ MP.mergeLabels (some " ") (some "0") ≠ some "0" :=
  ⟨rfl, by decide⟩

/-- Claim C5 (amended): `make_series_id` computes the ordered fallback on the
pandas-stringified fields — trimmed rendered uid when non-empty, else the
normalized url when non-empty, else normalized title "|" normalized
location — where a MISSING uid or url renders as the non-empty string
"nan" and therefore acts as present.  The normalizations remove every
character outside `[a-z0-9 ]` (title/location) and produce urls with no
query/fragment delimiters and no trailing slash; the resolver is a pure
function of its four arguments, hence deterministic, and always returns a
string. -/
theorem C5_resolver_fallback (uid url title loc : Option String) :
    (pyStrip (render uid) ≠ "" →
        make_series_id uid url title loc = pyStrip (render uid))
    ∧ (pyStrip (render uid) = "" → _norm_url url ≠ "" →
        make_series_id uid url title loc = _norm_url url)
    ∧ (pyStrip (render uid) = "" → _norm_url url = "" →
        make_series_id uid url title loc = _norm_str title ++ "|" ++ _norm_str loc)
    ∧ (∀ c ∈ (_norm_str title).data,
        ('a' ≤ c ∧ c ≤ 'z') ∨ ('0' ≤ c ∧ c ≤ '9') ∨ c = ' ')
    ∧ (∀ c ∈ (_norm_url url).data, c ≠ '?' ∧ c ≠ '#')
    ∧ (_norm_url url).data.getLast? ≠ some '/' := by
  refine ⟨?_, ?_, ?_, norm_str_charset title, norm_url_no_qf url,
    norm_url_no_trailing_slash url⟩
  · intro h
    simp only [make_series_id]
    rw [if_neg h]
  · intro h1 h2
    simp only [make_series_id]
    rw [if_pos h1, if_neg h2]
  · intro h1 h2
    simp only [make_series_id]
    rw [if_pos h1, if_pos h2]

/-- Witness for C5: a present uid is trimmed and used as the key. -/
theorem C5_witness :
    make_series_id (some " E7 ") (some "u") (some "t") (some "l") = "E7" := by
  have h := (C5_resolver_fallback (some " E7 ") (some "u") (some "t") (some "l")).1
    (by decide)
  rw [h]
  decide

/-- Counterexample for C5: with a missing (NaN) uid, `astype(str)` yields the
non-empty string "nan", which becomes the series key — the claim's fallback
would instead use the stripped url "http://a.com/x". -/
theorem C5_counterexample :
    make_series_id none (some "http://a.com/x?q=1") (some "T") (some "L") = "nan"
    ∧ _norm_url (some "http://a.com/x?q=1") = "http://a.com/x"
    ∧ ("nan" : String) ≠ "http://a.com/x" :=
  ⟨by decide, by decide, by decide⟩

/-- Claim C6: `fill_recurring_labels.py` groups by `series_id` with no guard
for the empty key, so two events with the empty series key form a group in
which propagation runs — one becomes a source and the other a target — while
`merge_and_propagate_labels.py` (which filters `series_id != ''`) leaves
empty-key rows untouched. -/
theorem C6_empty_series_eval :
    FR.fill_recurring_labels [("", some "1"), ("", none)]
      = [("", some "1"), ("", some "1")]
    ∧ MP.mergeprop_table [(some "", some "1"), (some "", none)]
      = [(some "", some "1"), (some "", none)] :=
  ⟨by decide, by decide⟩

/-- Claim C7 (amended): the confidence of `svm_tag_events.py` and
`smart_label_helper.py` is `1 / (1 + |margin|)`: strictly positive, at most
1, identical at both sites, and non-increasing in the absolute margin.
`svm_tag_from_file.py` instead reports the raw absolute margin, which is
non-decreasing in the absolute margin and not bounded by 1, so the claim's
"same normalization at every call site" fails. -/
theorem C7_confidence_normalization (m mm : ℚ) :
    0 < prediction_confidence m
    ∧ prediction_confidence m ≤ 1
    ∧ smart_confidence m = prediction_confidence m
    ∧ (|m| ≤ |mm| → prediction_confidence mm ≤ prediction_confidence m)
    ∧ (|m| ≤ |mm| → svm_confidence m ≤ svm_confidence mm)
    ∧ svm_confidence m = |m| := by
  have h0 : (0 : ℚ) < 1 + |m| := by positivity
  have h0' : (0 : ℚ) < 1 + |mm| := by positivity
  refine ⟨?_, ?_, rfl, ?_, ?_, rfl⟩
  · show (0 : ℚ) < 1 / (1 + |m|)
    exact div_pos one_pos h0
  · show (1 : ℚ) / (1 + |m|) ≤ 1
    rw [div_le_one h0]
    have := abs_nonneg m
    linarith
  · intro h
    show (1 : ℚ) / (1 + |mm|) ≤ 1 / (1 + |m|)
    exact one_div_le_one_div_of_le h0 (by linarith)
  · intro h
    exact h

/-- Witness for C7: at margins 1 and 2 the normalized confidence decreases
while the raw `svm_confidence` increases. -/
theorem C7_witness :
    prediction_confidence 2 ≤ prediction_confidence 1
    ∧ svm_confidence 1 ≤ svm_confidence 2 := by
  have h := C7_confidence_normalization 1 2
  have habs : |(1 : ℚ)| ≤ |(2 : ℚ)| := by norm_num
  exact ⟨h.2.2.2.1 habs, h.2.2.2.2.1 habs⟩

/-- Counterexample for C7: at margin 3, `svm_tag_from_file.py` reports
confidence 3, outside [0,1] and different from the `1 / (1 + |margin|)`
value 1/4 used by the other two call sites. -/
theorem C7_counterexample :
    svm_confidence 3 = 3
    ∧ ¬ svm_confidence 3 ≤ 1
    ∧ prediction_confidence 3 = 1 / 4
    ∧ svm_confidence 3 ≠ prediction_confidence 3 := by
  refine ⟨?_, ?_, ?_, ?_⟩ <;> norm_num [svm_confidence, prediction_confidence]

/-- Claim C8: the shared `build_features` temporal logic — hour is the
sentinel -1 exactly on an unparseable/absent start and lies in [0,23] on a
parsed one; `is_weekend` is 1 iff the parsed Monday=0 day-of-week is 5 or 6,
and 0 on an unparseable start (whose day-of-week is the sentinel -1). -/
theorem C8_temporal_features (p : Option Int) :
    (p = none → featHour p = -1 ∧ featIsWeekend p = 0)
    ∧ (∀ m, p = some m → 0 ≤ featHour p ∧ featHour p ≤ 23)
    ∧ (∀ m, p = some m → 0 ≤ featDow p ∧ featDow p ≤ 6)
    ∧ (featIsWeekend p = 1 ↔ (featDow p = 5 ∨ featDow p = 6)) := by
  refine ⟨?_, ?_, ?_, ?_⟩
  · rintro rfl
    exact ⟨rfl, rfl⟩
  · rintro m rfl
    show 0 ≤ (m / 60) % 24 ∧ (m / 60) % 24 ≤ 23
    omega
  · rintro m rfl
    show 0 ≤ (m / 1440 + 3) % 7 ∧ (m / 1440 + 3) % 7 ≤ 6
    omega
  · unfold featIsWeekend
    by_cases h : 5 ≤ featDow p ∧ featDow p ≤ 6
    · rw [if_pos h]
      constructor
      · intro _
        omega
      · intro _
        rfl
    · rw [if_neg h]
      constructor
      · intro h1
        exact absurd h1 (by norm_num)
      · intro h1
        rcases h1 with h1 | h1 <;> exact absurd ⟨by omega, by omega⟩ h

/-- Witness for C8: 1970-01-03 20:00 UTC (epoch minute 4080) is a Saturday
evening: hour 20, day-of-week 5, weekend flag 1. -/
theorem C8_witness :
    (0 ≤ featHour (some 4080) ∧ featHour (some 4080) ≤ 23)
    ∧ (featIsWeekend (some 4080) = 1 ↔
        (featDow (some 4080) = 5 ∨ featDow (some 4080) = 6)) := by
  have h := C8_temporal_features (some 4080)
  exact ⟨h.2.1 4080 rfl, h.2.2.2⟩

/-- Claim C9 (amended): `svm_train_from_file.py` halts (`SystemExit`, no
model) exactly when ZERO rows pass the labeled-row mask — any positive
number of labeled rows, even below 5, trains and saves a model — while
`auto_label_and_train.py`'s initial training halts exactly when fewer than
5 rows carry a non-missing label. -/
theorem C9_training_thresholds :
    (∀ ls : List (Option String),
        ST.trainHalts ls = true ↔ ∀ x ∈ ls, ST.labeled_mask x = false)
    ∧ (∀ ls : List (Option String),
        AL.initialTrainHalts ls = true ↔ ls.countP (fun x => x.isSome) < 5) := by
  constructor
  · intro ls
    simp only [ST.trainHalts, beq_iff_eq, List.length_eq_zero, List.filter_eq_nil_iff,
      Bool.not_eq_true]
  · intro ls
    simp only [AL.initialTrainHalts, decide_eq_true_eq, List.countP_eq_length_filter]

/-- Counterexample for C9: two labeled rows are below the claimed minimum of
five, yet `svm_train_from_file.py` does not halt (it trains a model). -/
theorem C9_counterexample :
    ST.trainHalts [some "0", some "1"] = false
    ∧ (List.filter ST.labeled_mask [some "0", some "1"]).length = 2
    ∧ (2 : Nat) < 5 :=
  ⟨by decide, by decide, by decide⟩

/-- Claim C10: in the strict `--propagate-series-labels` path of
`svm_train_from_file.py`, a float-formatted label ("0.0" / "1.0") fails the
exact "0"/"1" test — it contributes nothing to the group's distinct-value
set and is itself overwritten when the group has exactly one distinct exact
label — yet the same script's labeled-row selection accepts it as a valid
label. -/
theorem C10_float_labels_strict_propagation (x : Option String)
    (hx : render x = "0.0" ∨ render x = "1.0") :
    ST.mask x = false
    ∧ ST.labeled_mask x = true
    ∧ (∀ g, ST.vals (x :: g) = ST.vals g)
    ∧ (∀ g v, ST.vals g = [v] →
        ST.propagate (x :: g)
          = some v :: g.map (fun y => if ST.mask y then y else some v)) := by
  have hm : ST.mask x = false := by
    rcases hx with h | h <;> (unfold ST.mask; rw [h]; decide)
  have hl : ST.labeled_mask x = true := by
    rcases hx with h | h <;> (unfold ST.labeled_mask; rw [h]; decide)
  have hcons : ∀ g, ST.vals (x :: g) = ST.vals g := by
    intro g
    unfold ST.vals
    rw [List.filterMap_cons]
    have hnone : (if ST.mask x = true then some (render x) else none) = none := by
      rw [hm]
      simp
    rw [hnone]
  refine ⟨hm, hl, hcons, ?_⟩
  intro g v hg
  unfold ST.propagate
  rw [hcons g, hg]
  show (x :: g).map (fun y => if ST.mask y then y else some v)
    = some v :: g.map (fun y => if ST.mask y then y else some v)
  rw [List.map_cons]
  congr 1
  show (if ST.mask x = true then x else some v) = some v
  rw [hm]
  simp

/-- Witness for C10: the float-formatted label "1.0" is accepted by the
labeled-row mask but treated as an absent slot by the strict propagator and
overwritten with the group's unique exact label "0". -/
theorem C10_witness :
    ST.labeled_mask (some "1.0") = true
    ∧ ST.vals [some "1.0", some "0"] = ["0"]
    ∧ ST.propagate [some "1.0", some "0"] = [some "0", some "0"] := by
  have h := C10_float_labels_strict_propagation (some "1.0") (Or.inr rfl)
  refine ⟨h.2.1, ?_, ?_⟩
  · rw [h.2.2.1 [some "0"]]
    decide
  · rw [h.2.2.2 [some "0"] "0" (by decide)]
    decide
